import Mathlib

/-!
Verification of the pine in-memory expiring cache (`cache/cache.go`) and the
fixed-window rate limiter built on it (`limiter/rate_limit.go`).

Time is modelled in nanoseconds since the epoch (a `Nat`), matching Go's
`time.Time`/`time.Duration` resolution; `time.Time.Unix()` is whole-second
truncation, modelled by `unixSec`.  The cache's Go map is modelled as an
association list with last-writer-wins insertion.  Goroutine-local steps are
modelled as pure state-passing functions; the cache mutex makes each cache
operation atomic, so an interleaving of requests is a sequence of atomic
read (`Cache.Get`) and read-modify-write (`process` body after the `Get`)
phases.
-/

namespace Pine

/-- Nanoseconds in one second; `time.Second`. -/
def nsPerSec : Nat := 1000000000

/-- `time.Time.Unix()`: whole seconds since the epoch (truncating). -/
def unixSec (t : Nat) : Nat := t / nsPerSec

/-- One stored item: `keyVal{data, exp}` where `exp` is Unix seconds. -/
structure KeyVal (α : Type) where
  data : α
  exp : Nat
deriving Repr, DecidableEq

/-- Lookup in the association list modelling Go's `map[string]keyVal`. -/
def assocFind {β : Type} : List (String × β) → String → Option β
  | [], _ => none
  | (k', v) :: rest, k => if k' = k then some v else assocFind rest k

/-- Insert-or-overwrite for the association list (Go map assignment). -/
def assocSet {β : Type} : List (String × β) → String → β → List (String × β)
  | [], k, v => [(k, v)]
  | (k', v') :: rest, k, v =>
      if k' = k then (k, v) :: rest else (k', v') :: assocSet rest k v

/-- Removal for the association list (Go `delete`). -/
def assocErase {β : Type} : List (String × β) → String → List (String × β)
  | [], _ => []
  | (k', v') :: rest, k =>
      if k' = k then rest else (k', v') :: assocErase rest k

/-- The cache state: `data` map, default ttl / sweep interval `c`
(nanoseconds), and the `running` flag gating the sweep worker. -/
structure Cache (α : Type) where
  data : List (String × KeyVal α)
  c : Nat
  running : Bool
deriving Repr, DecidableEq

/-- `cache.New(reset)`: empty map, `c = reset` (default 1s), not running. -/
def Cache.new (α : Type) (reset : Option Nat) : Cache α :=
  { data := []
    c := match reset with | none => nsPerSec | some r => r
    running := false }

/-- `Cache.Set(key, data, ttl...)`: a zero or omitted ttl falls back to `c.c`;
stores `exp = time.Now().Add(ttl).Unix()`; sets `running` (it either already
was `true` or is assigned `true`). -/
def Cache.set (c : Cache α) (key : String) (d : α) (now : Nat)
    (ttl : Option Nat) : Cache α :=
  let t := match ttl with
    | none => c.c
    | some t0 => if t0 = 0 then c.c else t0
  { c with
    data := assocSet c.data key ⟨d, unixSec (now + t)⟩
    running := true }

/-- `Cache.Get(key)`: `nil` when the key is missing or `val.exp <
time.Now().Unix()`. -/
def Cache.get (c : Cache α) (key : String) (now : Nat) : Option α :=
  match assocFind c.data key with
  | none => none
  | some v => if v.exp < unixSec now then none else some v.data

/-- `Cache.Exists(key)`: physical presence in the map, no expiry check. -/
def Cache.existsKey (c : Cache α) (key : String) : Bool :=
  (assocFind c.data key).isSome

/-- `Cache.Delete(key)`: removes the key; `running` is not touched. -/
def Cache.delete (c : Cache α) (key : String) : Cache α :=
  { c with data := assocErase c.data key }

/-- `Cache.Clear()`: fresh empty map; `running` is not touched. -/
def Cache.clear (c : Cache α) : Cache α :=
  { c with data := [] }

/-- One pass of the sweep loop body in `Cache.start`: delete every entry with
`exp < now` (Unix seconds), then `running = len(data) > 0`. -/
def Cache.sweepPass (c : Cache α) (now : Nat) : Cache α :=
  let d := c.data.filter fun kv => ¬ (kv.2.exp < unixSec now)
  { c with data := d, running := decide (0 < d.length) }

/-- A mutating cache operation, for reasoning about operation traces. -/
inductive CacheOp (α : Type) where
  | set (key : String) (d : α) (now : Nat) (ttl : Option Nat)
  | del (key : String)
  | clear
  | sweep (now : Nat)
deriving Repr

/-- Apply one operation. -/
def Cache.applyOp (c : Cache α) : CacheOp α → Cache α
  | .set k d now ttl => c.set k d now ttl
  | .del k => c.delete k
  | .clear => c.clear
  | .sweep now => c.sweepPass now

/-- Apply a trace of operations left to right. -/
def Cache.runOps (c : Cache α) : List (CacheOp α) → Cache α
  | [] => c
  | op :: ops => (c.applyOp op).runOps ops

/-- Whether the operation is a `Set` of key `k`. -/
def CacheOp.setsKey (k : String) : CacheOp α → Bool
  | .set k' _ _ _ => k' = k
  | _ => false

/-! ## Rate limiter (`limiter/rate_limit.go`) -/

/-- The counting record `entry` stored per key (its mutex is concurrency
control only and carries no data). -/
structure RLEntry where
  key : String
  count : Int
  reset : Nat
  remaining : Int
deriving Repr, DecidableEq

/-- The observable configuration fields of `limiter.Config`: `MaxRequests`,
`Window`, `ShowHeader` and the membership of `internalWhitelist` /
`internalBlacklist`.  `KeyGen` is abstracted by passing the derived key
directly; `Handler` is abstracted by the `Outcome.blocked` result. -/
structure Config where
  maxRequests : Int
  window : Nat
  showHeader : Bool
  whitelist : List String
  blacklist : List String
deriving Repr, DecidableEq

/-- The defaults installed at the top of `limiter.New`. -/
def defaultConfig : Config :=
  { maxRequests := 5
    window := nsPerSec
    showHeader := true
    whitelist := []
    blacklist := [] }

/-- The merge in `limiter.New` of the optional user config over the defaults
(`config ...Config`; only the first element is used). -/
def mergeConfig : List Config → Config
  | [] => defaultConfig
  | u :: _ =>
    { maxRequests :=
        if u.maxRequests ≠ 0 then u.maxRequests else defaultConfig.maxRequests
      window := if u.window ≠ 0 then u.window else defaultConfig.window
      showHeader := if u.showHeader then u.showHeader else defaultConfig.showHeader
      whitelist := u.whitelist
      blacklist := u.blacklist }

/-- Result of `Config.process`: `(nil, nil)` for a whitelisted key,
`(nil, ErrBlacklist)` for a blacklisted one, `(e, nil)` otherwise. -/
inductive ProcResult where
  | pass
  | blacklisted
  | entry (e : RLEntry)
deriving Repr, DecidableEq

/-- The cache read at the top of the counted path of `process`
(`cfg.store.Get(key)`), atomic under the cache lock. -/
def processRead (store : Cache RLEntry) (key : String) (now : Nat) :
    Option RLEntry :=
  store.get key now

/-- The rest of the counted path of `process`, acting on the value the
goroutine read: create-and-store when absent, else return unchanged when
`remaining == 0`, else decrement and re-store (re-store passes no ttl). -/
def processAct (cfg : Config) (store : Cache RLEntry) (key : String)
    (now : Nat) : Option RLEntry → RLEntry × Cache RLEntry
  | none =>
      let e : RLEntry :=
        { key := key
          count := 1
          reset := now + cfg.window
          remaining := cfg.maxRequests }
      (e, store.set key e now none)
  | some ent =>
      if ent.remaining = 0 then (ent, store)
      else
        let e := { ent with remaining := ent.remaining - 1 }
        (e, store.set key e now none)

/-- `Config.process`: whitelist and blacklist short-circuits, then the
read-act sequence (sequential execution: the read and the act are adjacent). -/
def Config.process (cfg : Config) (store : Cache RLEntry) (key : String)
    (now : Nat) : ProcResult × Cache RLEntry :=
  if cfg.whitelist.contains key then (.pass, store)
  else if cfg.blacklist.contains key then (.blacklisted, store)
  else
    let r := processAct cfg store key now (processRead store key now)
    (.entry r.1, r.2)

/-- A response-header value as produced by `c.Set` in the middleware:
either an integer or the `http.TimeFormat` rendering of an instant. -/
inductive HVal where
  | int (i : Int)
  | httpDate (t : Nat)
deriving Repr, DecidableEq

def xrateLimitLimit : String := "X-RateLimit-Limit"
def xrateLimitRemaining : String := "X-RateLimit-Remaining"
def xrateLimitReset : String := "X-RateLimit-Reset"

/-- Which handler terminated the request: `next` (downstream) or the
configured blocked `Handler`. -/
inductive Outcome where
  | next
  | blocked
deriving Repr, DecidableEq

/-- Result of one invocation of the middleware closure. -/
structure MWRes where
  outcome : Outcome
  headers : List (String × HVal)
  store : Cache RLEntry
deriving Repr, DecidableEq

/-- The middleware closure returned by `limiter.New`: run `process`; on
`ErrBlacklist` set the three headers to `0` (unconditionally) and block; on a
`nil` entry run `next`; otherwise set the headers when `ShowHeader`, then
block iff `e.remaining == 0`. -/
def rlMiddleware (cfg : Config) (store : Cache RLEntry) (key : String)
    (now : Nat) : MWRes :=
  match cfg.process store key now with
  | (.blacklisted, s) =>
      { outcome := .blocked
        headers := [(xrateLimitLimit, .int 0), (xrateLimitRemaining, .int 0),
          (xrateLimitReset, .int 0)]
        store := s }
  | (.pass, s) => { outcome := .next, headers := [], store := s }
  | (.entry e, s) =>
      let hs : List (String × HVal) :=
        if cfg.showHeader then
          [(xrateLimitLimit, .int cfg.maxRequests),
           (xrateLimitRemaining, .int e.remaining),
           (xrateLimitReset, .httpDate e.reset)]
        else []
      if e.remaining = 0 then { outcome := .blocked, headers := hs, store := s }
      else { outcome := .next, headers := hs, store := s }

/-- The store `limiter.New` installs: `cache.New(cfg.Window)`. -/
def initialStore (cfg : Config) : Cache RLEntry :=
  Cache.new RLEntry (some cfg.window)

/-- Run one request per listed arrival time, sequentially, returning each
request's outcome and headers. -/
def runSeq (cfg : Config) (key : String) :
    Cache RLEntry → List Nat → List (Outcome × List (String × HVal))
  | _, [] => []
  | store, t :: ts =>
      let r := rlMiddleware cfg store key t
      (r.outcome, r.headers) :: runSeq cfg key r.store ts

/-- Serial execution of `n` requests for `key`, all arriving at time `t`,
starting from the limiter's fresh store; returns the store and the number of
requests that reached the downstream handler. -/
def runCount (cfg : Config) (key : String) (t : Nat) :
    Nat → Cache RLEntry × Nat
  | 0 => (initialStore cfg, 0)
  | n + 1 =>
      let p := runCount cfg key t n
      match cfg.process p.1 key t with
      | (.entry e, s') => (s', if e.remaining = 0 then p.2 else p.2 + 1)
      | (_, s') => (s', p.2)

/-! ## Interleavings of two concurrent requests (same key, same instant)

Each request on the counted path performs two atomic phases against the
cache: its read (`cfg.store.Get`, under the cache lock) and its act (the
branch on the value it read, ending in `cfg.store.Set` or not).  The Go code
holds no lock across the two phases of the create path, so the phases of two
concurrent requests may interleave arbitrarily, subject only to each
request reading before it acts. -/

/-- A phase of request 1 or request 2. -/
inductive RaceAction where
  | read1
  | read2
  | act1
  | act2
deriving Repr, DecidableEq

/-- Shared cache plus each goroutine's local state: the value it read
(`none` = has not read yet) and the entry its `process` returned. -/
structure RaceState where
  store : Cache RLEntry
  r1 : Option (Option RLEntry)
  r2 : Option (Option RLEntry)
  o1 : Option RLEntry
  o2 : Option RLEntry
deriving Repr, DecidableEq

/-- Execute one phase.  An act before the matching read is a no-op (such a
schedule is not a valid interleaving anyway). -/
def raceStep (cfg : Config) (key : String) (now : Nat) (s : RaceState) :
    RaceAction → RaceState
  | .read1 => { s with r1 := some (processRead s.store key now) }
  | .read2 => { s with r2 := some (processRead s.store key now) }
  | .act1 =>
      match s.r1 with
      | none => s
      | some r =>
          let p := processAct cfg s.store key now r
          { s with store := p.2, o1 := some p.1 }
  | .act2 =>
      match s.r2 with
      | none => s
      | some r =>
          let p := processAct cfg s.store key now r
          { s with store := p.2, o2 := some p.1 }

/-- Run a schedule of phases from the limiter's fresh store. -/
def raceRun (cfg : Config) (key : String) (now : Nat)
    (sched : List RaceAction) : RaceState :=
  sched.foldl (raceStep cfg key now)
    { store := initialStore cfg, r1 := none, r2 := none, o1 := none, o2 := none }

/-- A schedule is a valid interleaving of the two requests when each request
reads exactly once before acting exactly once. -/
def validSchedule (sched : List RaceAction) : Prop :=
  sched.count .read1 = 1 ∧ sched.count .act1 = 1 ∧
  sched.count .read2 = 1 ∧ sched.count .act2 = 1 ∧
  (∀ i j : Fin sched.length, sched.get i = .read1 → sched.get j = .act1 →
    i < j) ∧
  (∀ i j : Fin sched.length, sched.get i = .read2 → sched.get j = .act2 →
    i < j)

/-- A request was admitted when the middleware saw its returned entry with
`remaining ≠ 0` (so `next` ran). -/
def admitted : Option RLEntry → Bool
  | none => false
  | some e => e.remaining != 0

/-- How many of the two requests were admitted in a final race state. -/
def admittedCount (s : RaceState) : Nat :=
  (if admitted s.o1 then 1 else 0) + (if admitted s.o2 then 1 else 0)

/-! ## Association-list lemmas -/

theorem assocFind_assocSet_self {β : Type} (l : List (String × β)) (k : String)
    (v : β) : assocFind (assocSet l k v) k = some v := by
  induction l with
  | nil => simp [assocSet, assocFind]
  | cons p rest ih =>
    obtain ⟨a, b⟩ := p
    by_cases hak : a = k
    · simp [assocSet, hak, assocFind]
    · simp [assocSet, hak, assocFind, ih]

theorem assocFind_assocSet_ne {β : Type} (l : List (String × β)) (k k' : String)
    (v : β) (h : k' ≠ k) : assocFind (assocSet l k' v) k = assocFind l k := by
  induction l with
  | nil => simp [assocSet, assocFind, h]
  | cons p rest ih =>
    obtain ⟨a, b⟩ := p
    by_cases hak : a = k'
    · subst hak
      simp [assocSet, assocFind, h, ih]
    · simp only [assocSet, hak, if_false, if_neg]
      by_cases hk : a = k
      · simp [assocFind, hk]
      · simp [assocFind, hk, ih]

theorem assocFind_assocErase_none {β : Type} (l : List (String × β))
    (k k' : String) (h : assocFind l k = none) :
    assocFind (assocErase l k') k = none := by
  induction l with
  | nil => simp [assocErase, assocFind]
  | cons p rest ih =>
    obtain ⟨a, b⟩ := p
    by_cases hak : a = k
    · simp [assocFind, hak] at h
    · simp only [assocFind, hak, if_neg, if_false] at h
      by_cases hak' : a = k'
      · simpa [assocErase, hak'] using h
      · simpa [assocErase, hak', assocFind, hak] using ih h

theorem assocFind_filter_none {β : Type} (l : List (String × β)) (k : String)
    (p : String × β → Bool) (h : assocFind l k = none) :
    assocFind (l.filter p) k = none := by
  induction l with
  | nil => simp [assocFind]
  | cons q rest ih =>
    obtain ⟨a, b⟩ := q
    by_cases hak : a = k
    · simp [assocFind, hak] at h
    · simp only [assocFind, hak, if_neg, if_false] at h
      by_cases hp : p (a, b)
      · simpa [List.filter, hp, assocFind, hak] using ih h
      · simpa [List.filter, hp] using ih h

theorem unixSec_mono {a b : Nat} (h : a ≤ b) : unixSec a ≤ unixSec b :=
  Nat.div_le_div_right h

/-! ## C2: Get after Set, lazy expiry -/

/-- Characterization of a read after a write of key `k` with a nonzero ttl:
the value is returned exactly while `now`, truncated to whole Unix seconds,
is at most `setTime + ttl` truncated to whole Unix seconds. -/
theorem get_set_eq (c : Cache Int) (k : String) (v : Int) (s t now : Nat)
    (ht : t ≠ 0) :
    (c.set k v s (some t)).get k now =
      if unixSec now ≤ unixSec (s + t) then some v else none := by
  unfold Cache.set Cache.get
  simp only [ht, if_neg, if_false]
  rw [assocFind_assocSet_self]
  show (if unixSec (s + t) < unixSec now then none else some v) = _
  rcases le_or_lt (unixSec now) (unixSec (s + t)) with h | h
  · rw [if_neg (Nat.not_lt.mpr h), if_pos h]
  · rw [if_pos h, if_neg (Nat.not_le.mpr h)]

/-- C2 counterexample: `Set("k", 42, ttl = 1s)` at time 0 makes
`expiresAt = 1s`, yet a `Get` at exactly `now = 1s` (so `now ≥ expiresAt`)
still returns the value instead of absent: the stored expiry is truncated to
whole Unix seconds and the comparison is strict. -/
theorem C2_get_at_expiry_counterexample :
    ((Cache.new Int (some nsPerSec)).set "k" 42 0 (some nsPerSec)).get "k"
        nsPerSec = some 42 ∧
    0 + nsPerSec ≤ nsPerSec := by
  exact ⟨rfl, Nat.le_refl _⟩

/-- C2 (amended): for `Set(k, v, ttl=t)` at time `s` with `t ≠ 0`, `Get(k)`
at time `now` returns `v` iff `now` truncated to whole Unix seconds is at
most `s + t` truncated to whole Unix seconds, and absent otherwise — before
any sweep pass runs.  In particular `Get` returns `v` whenever `now < s + t`,
but an expired entry keeps being returned until the wall-clock second of
`s + t` has fully elapsed. -/
theorem C2_get_set_expiry (c : Cache Int) (k : String) (v : Int)
    (s t now : Nat) (ht : t ≠ 0) :
    ((c.set k v s (some t)).get k now = some v ↔
      unixSec now ≤ unixSec (s + t)) ∧
    ((c.set k v s (some t)).get k now = none ↔
      unixSec (s + t) < unixSec now) ∧
    (now < s + t → (c.set k v s (some t)).get k now = some v) := by
  rw [get_set_eq c k v s t now ht]
  refine ⟨?_, ?_, ?_⟩
  · rcases le_or_lt (unixSec now) (unixSec (s + t)) with h | h
    · simp [h]
    · simp [Nat.not_le.mpr h]
  · rcases le_or_lt (unixSec now) (unixSec (s + t)) with h | h
    · simp [h, Nat.not_lt.mpr h]
    · simp [Nat.not_le.mpr h, h]
  · intro hlt
    have hle : unixSec now ≤ unixSec (s + t) := unixSec_mono (Nat.le_of_lt hlt)
    simp [hle]

/-- C2 witness: concrete instance of `C2_get_set_expiry` — value set at time
0 with ttl 1s is absent at `now = 2s`. -/
theorem C2_get_set_expiry_witness :
    ((Cache.new Int (some nsPerSec)).set "k" 42 0 (some nsPerSec)).get "k"
      (2 * nsPerSec) = none := by
  have h := (C2_get_set_expiry (Cache.new Int (some nsPerSec)) "k" 42 0
    nsPerSec (2 * nsPerSec) (by decide)).2.1
  exact h.mpr (by decide)

/-! ## C6: the `running` flag versus emptiness -/

/-- C6 counterexample: `Set` then `Clear` leaves an empty cache whose
`running` flag is still `true` — `Clear` (like `Delete`) does not reset the
flag, contradicting "active equals entries-non-empty after every completed
operation" and "Clear() ... active becomes false". -/
theorem C6_clear_keeps_running_counterexample :
    (((Cache.new Int (some nsPerSec)).set "k" 1 0 none).clear).data = [] ∧
    (((Cache.new Int (some nsPerSec)).set "k" 1 0 none).clear).running = true := by
  exact ⟨rfl, rfl⟩

/-- C6 (amended): `Set` always leaves `running = true` (and a non-empty
map), and a sweep pass re-establishes `running = true` iff entries remain;
but `Delete` and `Clear` leave `running` unchanged, so deleting the last
entry or clearing leaves the flag `true` until the next sweep pass.  `Clear`
does reset the entries to empty. -/
theorem C6_running_flag (c : Cache Int) (k : String) (d : Int) (now : Nat)
    (ttl : Option Nat) :
    ((c.set k d now ttl).running = true ∧ (c.set k d now ttl).data ≠ []) ∧
    ((c.sweepPass now).running = true ↔ (c.sweepPass now).data ≠ []) ∧
    (c.delete k).running = c.running ∧
    (c.clear.running = c.running ∧ c.clear.data = []) := by
  refine ⟨⟨rfl, ?_⟩, ?_, rfl, rfl, rfl⟩
  · unfold Cache.set
    cases h : c.data with
    | nil => simp [assocSet]
    | cons p rest =>
      obtain ⟨a, b⟩ := p
      by_cases hak : a = k <;> simp [assocSet, hak]
  · unfold Cache.sweepPass
    simp only [decide_eq_true_eq]
    cases c.data.filter fun kv => ¬ (kv.2.exp < unixSec now) with
    | nil => simp
    | cons p rest => simp

/-! ## C7: `Exists` versus `Get` -/

/-- If an operation does not `Set` key `k`, a key absent from the map stays
absent. -/
theorem assocFind_applyOp_none (c : Cache Int) (op : CacheOp Int) (k : String)
    (hop : op.setsKey k = false) (h : assocFind c.data k = none) :
    assocFind (c.applyOp op).data k = none := by
  cases op with
  | set k' d now ttl =>
    have hne : k' ≠ k := by
      simpa [CacheOp.setsKey] using hop
    unfold Cache.applyOp Cache.set
    rw [assocFind_assocSet_ne c.data k k' _ hne]
    exact h
  | del k' => exact assocFind_assocErase_none c.data k k' h
  | clear => simp [Cache.applyOp, Cache.clear, assocFind]
  | sweep now => exact assocFind_filter_none c.data k _ h

/-- A trace of operations none of which `Set`s key `k` keeps `k` absent. -/
theorem assocFind_runOps_none (ops : List (CacheOp Int)) :
    ∀ c : Cache Int, ∀ k : String, (∀ op ∈ ops, op.setsKey k = false) →
      assocFind c.data k = none → assocFind (c.runOps ops).data k = none := by
  induction ops with
  | nil => intro c k _ h; exact h
  | cons op rest ih =>
    intro c k hops h
    have h1 := assocFind_applyOp_none c op k (hops op (by simp)) h
    exact ih (c.applyOp op) k (fun o ho => hops o (by simp [ho])) h1

/-- C7: `Exists` reports physical presence, independent of expiry.  (1) For
any trace of cache operations from a fresh cache that never `Set`s key `k`,
both `Get k` returns absent and `Exists k` is false.  (2) For any cache
holding key `k` with an entry whose expiry second has passed but which has
not been swept, `Exists k` is true while `Get k` returns absent. -/
theorem C7_existsKey_vs_get :
    (∀ (ops : List (CacheOp Int)) (i : Option Nat) (k : String) (now : Nat),
      (∀ op ∈ ops, op.setsKey k = false) →
      ((Cache.new Int i).runOps ops).get k now = none ∧
      ((Cache.new Int i).runOps ops).existsKey k = false) ∧
    (∀ (c : Cache Int) (k : String) (kv : KeyVal Int) (now : Nat),
      assocFind c.data k = some kv → kv.exp < unixSec now →
      c.existsKey k = true ∧ c.get k now = none) := by
  constructor
  · intro ops i k now hops
    have hnone : assocFind ((Cache.new Int i).runOps ops).data k = none := by
      apply assocFind_runOps_none ops (Cache.new Int i) k hops
      simp [Cache.new, assocFind]
    constructor
    · unfold Cache.get
      rw [hnone]
    · unfold Cache.existsKey
      rw [hnone]
      rfl
  · intro c k kv now hfind hexp
    constructor
    · unfold Cache.existsKey
      rw [hfind]
      rfl
    · unfold Cache.get
      rw [hfind]
      show (if kv.exp < unixSec now then none else some kv.data) = none
      rw [if_pos hexp]

/-- C7 witness: concrete instances of both halves of
`C7_existsKey_vs_get`. -/
theorem C7_existsKey_vs_get_witness :
    ((Cache.new Int (some nsPerSec)).runOps
        [CacheOp.set "a" 1 0 none, CacheOp.sweep nsPerSec]).get "k" 0 = none ∧
    (Cache.mk (α := Int) [("e", ⟨7, 0⟩)] nsPerSec true).existsKey "e" = true ∧
    (Cache.mk (α := Int) [("e", ⟨7, 0⟩)] nsPerSec true).get "e" (5 * nsPerSec) = none := by
  refine ⟨?_, ?_, ?_⟩
  · exact (C7_existsKey_vs_get.1 [CacheOp.set "a" 1 0 none, CacheOp.sweep nsPerSec]
      (some nsPerSec) "k" 0 (by decide)).1
  · exact (C7_existsKey_vs_get.2 (Cache.mk (α := Int) [("e", ⟨7, 0⟩)] nsPerSec true) "e"
      ⟨7, 0⟩ (5 * nsPerSec) (by decide) (by decide)).1
  · exact (C7_existsKey_vs_get.2 (Cache.mk (α := Int) [("e", ⟨7, 0⟩)] nsPerSec true) "e"
      ⟨7, 0⟩ (5 * nsPerSec) (by decide) (by decide)).2

/-! ## `process` characterization -/

/-- On the counted path with no record in the cache, `process` creates
`{count: 1, reset: now + window, remaining: maxRequests}`, stores it with the
default ttl, and returns it. -/
theorem process_absent (cfg : Config) (store : Cache RLEntry) (key : String)
    (now : Nat) (hw : cfg.whitelist.contains key = false)
    (hb : cfg.blacklist.contains key = false)
    (h : store.get key now = none) :
    cfg.process store key now =
      (.entry ⟨key, 1, now + cfg.window, cfg.maxRequests⟩,
        store.set key ⟨key, 1, now + cfg.window, cfg.maxRequests⟩ now none) := by
  unfold Config.process processRead
  rw [hw, hb, h]
  rfl

/-- On the counted path with an exhausted record, `process` returns the
record and leaves the store untouched. -/
theorem process_present_zero (cfg : Config) (store : Cache RLEntry)
    (key : String) (now : Nat) (ent : RLEntry)
    (hw : cfg.whitelist.contains key = false)
    (hb : cfg.blacklist.contains key = false)
    (h : store.get key now = some ent) (hz : ent.remaining = 0) :
    cfg.process store key now = (.entry ent, store) := by
  unfold Config.process processRead
  rw [hw, hb, h]
  simp [processAct, hz]

/-- On the counted path with a non-exhausted record, `process` decrements
`remaining`, re-stores under the same key with the default ttl, and returns
the decremented record. -/
theorem process_present_pos (cfg : Config) (store : Cache RLEntry)
    (key : String) (now : Nat) (ent : RLEntry)
    (hw : cfg.whitelist.contains key = false)
    (hb : cfg.blacklist.contains key = false)
    (h : store.get key now = some ent) (hz : ent.remaining ≠ 0) :
    cfg.process store key now =
      (.entry { ent with remaining := ent.remaining - 1 },
        store.set key { ent with remaining := ent.remaining - 1 } now none) := by
  unfold Config.process processRead
  rw [hw, hb, h]
  simp [processAct, hz]

/-- Reading back a freshly `Set` key at a time not before the write returns
the stored record (its expiry second has not passed). -/
theorem get_after_set_shared (store : Cache RLEntry) (key : String)
    (e : RLEntry) (tw now : Nat) (hset : tw ≥ now) :
    (Cache.mk (assocSet store.data key ⟨e, unixSec tw⟩) store.c true).get key
      now = some e := by
  unfold Cache.get
  rw [show (Cache.mk (assocSet store.data key ⟨e, unixSec tw⟩) store.c true).data
      = assocSet store.data key ⟨e, unixSec tw⟩ from rfl]
  rw [assocFind_assocSet_self]
  have hle : unixSec now ≤ unixSec tw := unixSec_mono hset
  show (if unixSec tw < unixSec now then none else some e) = some e
  rw [if_neg (Nat.not_lt.mpr hle)]

/-! ## Serial runs: the per-window record invariant -/

/-- State and admission count after `n + 1` serial requests for `key`, all
arriving at time `t`, from the limiter's fresh store with
`maxRequests = K ≥ 0`: the stored record has `count = 1`,
`reset = t + window` (fixed at creation), `remaining = max (K - n) 0`, the
cache entry's expiry second is that of `t + window`, and exactly
`min (n + 1) K` requests were admitted. -/
theorem runCount_zero (cfg : Config) (key : String) (t : Nat) :
    runCount cfg key t 0 = (initialStore cfg, 0) := rfl

theorem runCount_succ_entry (cfg : Config) (key : String) (t : Nat) (n : Nat)
    (e : RLEntry) (s' : Cache RLEntry)
    (h : cfg.process (runCount cfg key t n).1 key t = (.entry e, s')) :
    runCount cfg key t (n + 1) =
      (s', if e.remaining = 0 then (runCount cfg key t n).2
        else (runCount cfg key t n).2 + 1) := by
  show (match cfg.process (runCount cfg key t n).1 key t with
    | (.entry e, s') => (s', if e.remaining = 0 then (runCount cfg key t n).2
        else (runCount cfg key t n).2 + 1)
    | (_, s') => (s', (runCount cfg key t n).2)) = _
  rw [h]

theorem runCount_spec (cfg : Config) (key : String) (t : Nat) (K : Nat)
    (hw : cfg.whitelist.contains key = false)
    (hb : cfg.blacklist.contains key = false)
    (hK : cfg.maxRequests = (K : Int)) :
    ∀ n : Nat,
      (runCount cfg key t (n + 1)).1.c = cfg.window ∧
      assocFind (runCount cfg key t (n + 1)).1.data key =
        some ⟨⟨key, 1, t + cfg.window, max ((K : Int) - n) 0⟩,
          unixSec (t + cfg.window)⟩ ∧
      (runCount cfg key t (n + 1)).2 = min (n + 1) K := by
  intro n
  induction n with
  | zero =>
    have hget : (runCount cfg key t 0).1.get key t = none := by
      rw [runCount_zero]
      simp [initialStore, Cache.new, Cache.get, assocFind]
    have hstep := process_absent cfg (runCount cfg key t 0).1 key t hw hb hget
    have h1 := runCount_succ_entry cfg key t 0 _ _ hstep
    rw [h1, runCount_zero]
    have hc0 : (initialStore cfg).c = cfg.window := rfl
    refine ⟨rfl, ?_, ?_⟩
    · show assocFind (assocSet (initialStore cfg).data key
        ⟨⟨key, 1, t + cfg.window, cfg.maxRequests⟩,
          unixSec (t + (initialStore cfg).c)⟩) key = _
      rw [assocFind_assocSet_self, hc0, hK]
      have hmax : max ((K : Int) - (0 : Nat)) 0 = (K : Int) := by
        omega
      rw [hmax]
    · show (if (cfg.maxRequests = 0) then (0 : Nat) else 0 + 1) = min (0 + 1) K
      rw [hK]
      by_cases hK0 : K = 0
      · subst hK0
        simp
      · have hKz : ((K : Int)) ≠ 0 := by
          exact_mod_cast hK0
        rw [if_neg hKz]
        omega
  | succ n ih =>
    obtain ⟨ihc, ihfind, ihcount⟩ := ih
    have hget : (runCount cfg key t (n + 1)).1.get key t =
        some ⟨key, 1, t + cfg.window, max ((K : Int) - n) 0⟩ := by
      unfold Cache.get
      rw [ihfind]
      have hle : unixSec t ≤ unixSec (t + cfg.window) :=
        unixSec_mono (Nat.le_add_right t cfg.window)
      show (if unixSec (t + cfg.window) < unixSec t then none else _) = _
      rw [if_neg (Nat.not_lt.mpr hle)]
    by_cases hz : max ((K : Int) - n) 0 = 0
    · have hstep := process_present_zero cfg (runCount cfg key t (n + 1)).1 key
        t ⟨key, 1, t + cfg.window, max ((K : Int) - n) 0⟩ hw hb hget hz
      have h1 := runCount_succ_entry cfg key t (n + 1) _ _ hstep
      rw [h1]
      have hKn : K ≤ n := by
        omega
      refine ⟨ihc, ?_, ?_⟩
      · rw [ihfind]
        have hmax : max ((K : Int) - (n + 1 : Nat)) 0 = max ((K : Int) - n) 0 := by
          omega
        rw [hmax]
      · show (if max ((K : Int) - n) 0 = 0 then (runCount cfg key t (n + 1)).2
          else (runCount cfg key t (n + 1)).2 + 1) = _
        rw [if_pos hz, ihcount]
        omega
    · have hstep := process_present_pos cfg (runCount cfg key t (n + 1)).1 key
        t ⟨key, 1, t + cfg.window, max ((K : Int) - n) 0⟩ hw hb hget hz
      have hKn : n < K := by
        omega
      have hrem : max ((K : Int) - n) 0 - 1 = max ((K : Int) - (n + 1 : Nat)) 0 := by
        omega
      have h1 := runCount_succ_entry cfg key t (n + 1) _ _ hstep
      rw [h1]
      refine ⟨ihc, ?_, ?_⟩
      · show assocFind (assocSet (runCount cfg key t (n + 1)).1.data key
          ⟨⟨key, 1, t + cfg.window, max ((K : Int) - n) 0 - 1⟩,
            unixSec (t + (runCount cfg key t (n + 1)).1.c)⟩) key = _
        rw [assocFind_assocSet_self, ihc, hrem]
      · show (if max ((K : Int) - n) 0 - 1 = 0 then (runCount cfg key t (n + 1)).2
          else (runCount cfg key t (n + 1)).2 + 1) = _
        rw [ihcount]
        by_cases hK1 : max ((K : Int) - n) 0 - 1 = 0
        · rw [if_pos hK1]
          omega
        · rw [if_neg hK1]
          omega

/-! ## C4: the record invariant within a window -/

/-- C4 counterexample: after two requests for `"k"` the stored record still
has `count = 1` (it is set once at creation and never updated), not the
claimed total of 2 requests seen; `remaining` is `4` rather than
`maxRequests - count`. -/
theorem C4_count_counterexample :
    (runCount defaultConfig "k" 0 2).1.get "k" 0 =
      some ⟨"k", 1, nsPerSec, 4⟩ ∧ (1 : Int) ≠ 2 := by
  exact ⟨rfl, by decide⟩

/-- C4 (amended): after `n + 1` serial requests in a window the record has
`count = 1` permanently (only creation sets it), `reset` fixed at
creation-time + window, and `remaining = max (maxRequests - n) 0` — i.e.
`remaining` starts at `maxRequests` (not `maxRequests - 1`) and decreases by
one per subsequent non-exhausted request, clamped at 0; `count` does not
track the number of requests. -/
theorem C4_record_invariant (cfg : Config) (key : String) (t : Nat)
    (K n : Nat) (hw : cfg.whitelist.contains key = false)
    (hb : cfg.blacklist.contains key = false)
    (hK : cfg.maxRequests = (K : Int)) :
    (runCount cfg key t (n + 1)).1.get key t =
      some ⟨key, 1, t + cfg.window, max ((K : Int) - n) 0⟩ := by
  obtain ⟨_, hfind, _⟩ := runCount_spec cfg key t K hw hb hK n
  unfold Cache.get
  rw [hfind]
  have hle : unixSec t ≤ unixSec (t + cfg.window) :=
    unixSec_mono (Nat.le_add_right t cfg.window)
  show (if unixSec (t + cfg.window) < unixSec t then none else _) = _
  rw [if_neg (Nat.not_lt.mpr hle)]

/-- C4 witness: concrete instance of `C4_record_invariant` after 2 requests
with the default config. -/
theorem C4_record_invariant_witness :
    (runCount defaultConfig "k" 0 2).1.get "k" 0 =
      some ⟨"k", 1, nsPerSec, 4⟩ := by
  exact (C4_record_invariant defaultConfig "k" 0 5 1 rfl rfl rfl).trans
    (by decide)

/-! ## C9: serial admissions versus the create race -/

/-- The interleaving in which both goroutines read before either writes. -/
def racySchedule : List RaceAction := [.read1, .read2, .act1, .act2]

/-- A limiter config with `maxRequests = 1`. -/
def cfgK1 : Config :=
  { maxRequests := 1
    window := nsPerSec
    showHeader := true
    whitelist := []
    blacklist := [] }

/-- C9 counterexample: with `maxRequests = K = 1` and `N = 2` simultaneous
first-time requests for the same key, the valid interleaving in which both
requests `Get` before either `Set`s (nothing in the code prevents it: no
lock is held from the read to the create) admits BOTH requests — 2 ≠ K. -/
theorem C9_race_counterexample :
    validSchedule racySchedule ∧
    admittedCount (raceRun cfgK1 "k" 0 racySchedule) = 2 ∧ (2 : Nat) ≠ 1 := by
  refine ⟨?_, by decide, by decide⟩
  unfold validSchedule racySchedule
  exact ⟨by decide, by decide, by decide, by decide, by decide, by decide⟩

/-- C9 (amended): when the requests for one key are serialized (each
read-act pair runs atomically, one request after another), `n` first-time
requests with `maxRequests = K` admit exactly `min n K` — so exactly `K` of
`N > K` requests; the admitted-exactly-`K` property holds only for such
serialized executions, not for every interleaving. -/
theorem C9_serial_admission (cfg : Config) (key : String) (t : Nat)
    (K n : Nat) (hw : cfg.whitelist.contains key = false)
    (hb : cfg.blacklist.contains key = false)
    (hK : cfg.maxRequests = (K : Int)) :
    (runCount cfg key t n).2 = min n K := by
  cases n with
  | zero =>
    rw [runCount_zero]
    simp
  | succ m => exact (runCount_spec cfg key t K hw hb hK m).2.2

/-- C9 witness: 7 serialized requests with the default `maxRequests = 5`
admit exactly 5. -/
theorem C9_serial_admission_witness :
    (runCount defaultConfig "k" 0 7).2 = 5 := by
  exact (C9_serial_admission defaultConfig "k" 0 5 7 rfl rfl rfl).trans
    (by decide)

/-! ## C3: re-store refreshes the cache ttl -/

/-- A limiter config with a 5-second window. -/
def cfgC3 : Config :=
  { maxRequests := 5
    window := 5 * nsPerSec
    showHeader := true
    whitelist := []
    blacklist := [] }

/-- C3 counterexample: window 5s; the record is created at time 0 (so
creation-time + window = 5s) and a second request is admitted at 3s.  At 6s,
after the claimed expiry instant, the record is still returned by the cache
— the second request's re-store refreshed the entry ttl to 3s + 5s = 8s.
The record's own `reset` field still reads 5s. -/
theorem C3_ttl_refresh_counterexample :
    ((cfgC3.process ((cfgC3.process (initialStore cfgC3) "k" 0).2) "k"
        (3 * nsPerSec)).2).get "k" (6 * nsPerSec) =
      some ⟨"k", 1, 5 * nsPerSec, 4⟩ ∧
    0 + 5 * nsPerSec < 6 * nsPerSec := by
  exact ⟨rfl, by decide⟩

/-- C3 (amended): an admission against an existing record re-stores it under
the same key with the record's `reset` field preserved, but the re-store
calls `Set` with no ttl, so the cache entry's expiry is refreshed to
re-store-time + the store's default ttl (the window): the record's cache
lifetime slides with the last counted request instead of ending at
creation-time + window. -/
theorem C3_restore_refreshes_ttl (cfg : Config) (store : Cache RLEntry)
    (key : String) (now : Nat) (ent : RLEntry)
    (hw : cfg.whitelist.contains key = false)
    (hb : cfg.blacklist.contains key = false)
    (hget : store.get key now = some ent) (hz : ent.remaining ≠ 0) :
    cfg.process store key now =
      (.entry { ent with remaining := ent.remaining - 1 },
        store.set key { ent with remaining := ent.remaining - 1 } now none) ∧
    ({ ent with remaining := ent.remaining - 1 } : RLEntry).reset = ent.reset ∧
    assocFind
        (store.set key { ent with remaining := ent.remaining - 1 } now
          none).data key =
      some ⟨{ ent with remaining := ent.remaining - 1 },
        unixSec (now + store.c)⟩ := by
  refine ⟨process_present_pos cfg store key now ent hw hb hget hz, rfl, ?_⟩
  show assocFind (assocSet store.data key _) key = _
  rw [assocFind_assocSet_self]

/-- C3 witness: concrete instance of `C3_restore_refreshes_ttl` at the
second request of the counterexample scenario. -/
theorem C3_restore_refreshes_ttl_witness :
    assocFind
        (((cfgC3.process (initialStore cfgC3) "k" 0).2).set "k"
          ⟨"k", 1, 5 * nsPerSec, 4⟩ (3 * nsPerSec) none).data "k" =
      some ⟨⟨"k", 1, 5 * nsPerSec, 4⟩, 8⟩ := by
  have h := C3_restore_refreshes_ttl cfgC3
    ((cfgC3.process (initialStore cfgC3) "k" 0).2) "k" (3 * nsPerSec)
    ⟨"k", 1, 5 * nsPerSec, 5⟩ rfl rfl rfl (by decide)
  exact h.2.2.trans (by decide)

/-! ## C8: exhausted records deny without mutation -/

/-- C8: a request for a key whose record has `remaining == 0` (key neither
whitelisted nor blacklisted) is routed to the blocked handler (`next` does
not run, no error value reaches it), and both the record and the whole cache
are left unchanged — `process` returns the record as-is without re-storing. -/
theorem C8_exhausted_denial (cfg : Config) (store : Cache RLEntry)
    (key : String) (now : Nat) (ent : RLEntry)
    (hw : cfg.whitelist.contains key = false)
    (hb : cfg.blacklist.contains key = false)
    (hget : store.get key now = some ent) (hz : ent.remaining = 0) :
    cfg.process store key now = (.entry ent, store) ∧
    (rlMiddleware cfg store key now).outcome = .blocked ∧
    (rlMiddleware cfg store key now).store = store := by
  have hp := process_present_zero cfg store key now ent hw hb hget hz
  refine ⟨hp, ?_, ?_⟩
  · unfold rlMiddleware
    rw [hp]
    simp [hz]
  · unfold rlMiddleware
    rw [hp]
    simp [hz]

/-- C8 witness: concrete instance of `C8_exhausted_denial` on a store
holding an exhausted record. -/
theorem C8_exhausted_denial_witness :
    (rlMiddleware defaultConfig
      (Cache.mk [("k", ⟨⟨"k", 1, nsPerSec, 0⟩, 1⟩)] nsPerSec true) "k"
      0).outcome = .blocked := by
  exact (C8_exhausted_denial defaultConfig
    (Cache.mk [("k", ⟨⟨"k", 1, nsPerSec, 0⟩, 1⟩)] nsPerSec true) "k" 0
    ⟨"k", 1, nsPerSec, 0⟩ rfl rfl rfl rfl).2.1

/-! ## C5: headers on denial -/

/-- A default config whose blacklist contains `"b"`. -/
def cfgBlk : Config :=
  { maxRequests := 5
    window := nsPerSec
    showHeader := true
    whitelist := []
    blacklist := ["b"] }

/-- C5 counterexample: a blacklisted key with `showHeaders = true` and
`maxRequests = 5` is denied with `X-RateLimit-Limit` set to `0`, not to
`maxRequests`. -/
theorem C5_blacklist_limit_counterexample :
    (rlMiddleware cfgBlk (initialStore cfgBlk) "b" 0).outcome = .blocked ∧
    assocFind (rlMiddleware cfgBlk (initialStore cfgBlk) "b" 0).headers
      xrateLimitLimit = some (.int 0) ∧
    cfgBlk.showHeader = true ∧ cfgBlk.maxRequests = 5 ∧
    HVal.int 0 ≠ HVal.int 5 := by
  exact ⟨rfl, rfl, rfl, rfl, by decide⟩

/-- C5 (amended): on a counter-exhausted denial with `showHeaders = true`
the response carries `X-RateLimit-Limit = maxRequests` and
`X-RateLimit-Remaining = 0` as claimed; but on a blacklist denial the three
headers are set to `0` — including `X-RateLimit-Limit = 0`, not
`maxRequests` — and are set whether or not `showHeaders` is true. -/
theorem C5_denial_headers (cfg : Config) (store : Cache RLEntry)
    (key : String) (now : Nat) :
    (cfg.whitelist.contains key = false → cfg.blacklist.contains key = true →
      (rlMiddleware cfg store key now).outcome = .blocked ∧
      (rlMiddleware cfg store key now).headers =
        [(xrateLimitLimit, .int 0), (xrateLimitRemaining, .int 0),
          (xrateLimitReset, .int 0)]) ∧
    (∀ ent : RLEntry, cfg.whitelist.contains key = false →
      cfg.blacklist.contains key = false → store.get key now = some ent →
      ent.remaining = 0 → cfg.showHeader = true →
      (rlMiddleware cfg store key now).outcome = .blocked ∧
      (rlMiddleware cfg store key now).headers =
        [(xrateLimitLimit, .int cfg.maxRequests),
          (xrateLimitRemaining, .int 0),
          (xrateLimitReset, .httpDate ent.reset)]) := by
  constructor
  · intro hw hb
    have hp : cfg.process store key now = (.blacklisted, store) := by
      unfold Config.process
      rw [hw, hb]
      rfl
    unfold rlMiddleware
    rw [hp]
    exact ⟨rfl, rfl⟩
  · intro ent hw hb hget hz hsh
    have hp := process_present_zero cfg store key now ent hw hb hget hz
    unfold rlMiddleware
    rw [hp]
    simp [hz, hsh]

/-- C5 witness: concrete instances of both halves of `C5_denial_headers`. -/
theorem C5_denial_headers_witness :
    (rlMiddleware cfgBlk (initialStore cfgBlk) "b" 0).headers =
      [(xrateLimitLimit, .int 0), (xrateLimitRemaining, .int 0),
        (xrateLimitReset, .int 0)] ∧
    (rlMiddleware defaultConfig
        (Cache.mk [("k", ⟨⟨"k", 1, nsPerSec, 0⟩, 1⟩)] nsPerSec true) "k"
        0).headers =
      [(xrateLimitLimit, .int 5), (xrateLimitRemaining, .int 0),
        (xrateLimitReset, .httpDate nsPerSec)] := by
  constructor
  · exact ((C5_denial_headers cfgBlk (initialStore cfgBlk) "b" 0).1 rfl
      rfl).2
  · exact (((C5_denial_headers defaultConfig
      (Cache.mk [("k", ⟨⟨"k", 1, nsPerSec, 0⟩, 1⟩)] nsPerSec true) "k" 0).2
      ⟨"k", 1, nsPerSec, 0⟩ rfl rfl rfl rfl rfl).2).trans (by decide)

/-! ## C10: a user-supplied ShowHeader=false is ignored -/

/-- C10: for every user-supplied config, the merge in `New` copies
`ShowHeader` only when the user value is `true`, so the effective
`ShowHeader` is always `true`; consequently on every counted admission or
denial the middleware attaches the three rate-limit headers regardless of
the requested setting. -/
theorem C10_showHeader_always_true (u : Config) (store : Cache RLEntry)
    (key : String) (now : Nat) (e : RLEntry) (s : Cache RLEntry)
    (h : (mergeConfig [u]).process store key now = (.entry e, s)) :
    (mergeConfig [u]).showHeader = true ∧
    (rlMiddleware (mergeConfig [u]) store key now).headers =
      [(xrateLimitLimit, .int (mergeConfig [u]).maxRequests),
        (xrateLimitRemaining, .int e.remaining),
        (xrateLimitReset, .httpDate e.reset)] := by
  have hsh : (mergeConfig [u]).showHeader = true := by
    show (if u.showHeader then u.showHeader else defaultConfig.showHeader)
      = true
    by_cases hu : u.showHeader
    · simp [hu]
    · simp [hu, defaultConfig]
  refine ⟨hsh, ?_⟩
  unfold rlMiddleware
  rw [h]
  by_cases hz : e.remaining = 0 <;> simp [hz, hsh]

/-- A user config explicitly requesting `ShowHeader = false`. -/
def userCfgNoHeaders : Config :=
  { maxRequests := 3
    window := 2 * nsPerSec
    showHeader := false
    whitelist := []
    blacklist := [] }

/-- C10 witness: with a user config whose `ShowHeader` is `false`, the
effective config still shows headers and a counted admission carries all
three of them. -/
theorem C10_showHeader_always_true_witness :
    (mergeConfig [userCfgNoHeaders]).showHeader = true ∧
    (rlMiddleware (mergeConfig [userCfgNoHeaders])
        (initialStore (mergeConfig [userCfgNoHeaders])) "k" 0).headers =
      [(xrateLimitLimit, .int 3), (xrateLimitRemaining, .int 3),
        (xrateLimitReset, .httpDate (2 * nsPerSec))] := by
  have h := C10_showHeader_always_true userCfgNoHeaders
    (initialStore (mergeConfig [userCfgNoHeaders])) "k" 0 _ _ rfl
  exact ⟨h.1, h.2.trans (by decide)⟩

/-! ## C1: the five-then-deny sequence with its emitted headers -/

/-- C1 counterexample: with the default `maxRequests = 5, window = 1s`, the
very first request is admitted with `X-RateLimit-Remaining = 5` (a fresh
record's `remaining` starts at `maxRequests` and the creating request does
not decrement), not the claimed `4`; and a request arriving exactly 1s after
the record was created is still denied (the entry's whole expiry second must
elapse first, and each counted request refreshed the ttl). -/
theorem C1_first_request_counterexample :
    (runSeq defaultConfig "k" (initialStore defaultConfig) [0]).map
        Prod.snd =
      [[(xrateLimitLimit, .int 5), (xrateLimitRemaining, .int 5),
        (xrateLimitReset, .httpDate nsPerSec)]] ∧
    HVal.int 5 ≠ HVal.int 4 ∧
    (runSeq defaultConfig "k" (initialStore defaultConfig)
        [0, 0, 0, 0, 0, 0, nsPerSec]).map Prod.fst =
      [.next, .next, .next, .next, .next, .blocked, .blocked] := by
  exact ⟨rfl, by decide, rfl⟩

/-- C1 (amended): requests 1–5 are each admitted, but with emitted
`X-RateLimit-Remaining` values 5, 4, 3, 2, 1; request 6 is denied with
remaining `0` (it decremented the record to 0 and the middleware then
blocked); a request arriving once the entry's expiry second has fully
elapsed (for example 2s after creation) is admitted against a fresh record
with `remaining = 5` again. -/
theorem C1_sequence_amended :
    runSeq defaultConfig "k" (initialStore defaultConfig)
        [0, 0, 0, 0, 0, 0, 2 * nsPerSec] =
      [(.next, [(xrateLimitLimit, .int 5), (xrateLimitRemaining, .int 5),
          (xrateLimitReset, .httpDate nsPerSec)]),
        (.next, [(xrateLimitLimit, .int 5), (xrateLimitRemaining, .int 4),
          (xrateLimitReset, .httpDate nsPerSec)]),
        (.next, [(xrateLimitLimit, .int 5), (xrateLimitRemaining, .int 3),
          (xrateLimitReset, .httpDate nsPerSec)]),
        (.next, [(xrateLimitLimit, .int 5), (xrateLimitRemaining, .int 2),
          (xrateLimitReset, .httpDate nsPerSec)]),
        (.next, [(xrateLimitLimit, .int 5), (xrateLimitRemaining, .int 1),
          (xrateLimitReset, .httpDate nsPerSec)]),
        (.blocked, [(xrateLimitLimit, .int 5), (xrateLimitRemaining, .int 0),
          (xrateLimitReset, .httpDate nsPerSec)]),
        (.next, [(xrateLimitLimit, .int 5), (xrateLimitRemaining, .int 5),
          (xrateLimitReset, .httpDate (3 * nsPerSec))])] := by
  rfl

end Pine
